import Mathlib

/-!
Shallow embedding of `src/aviation_hackathon_sf/telemetry_validator.py`
(class `TelemetryValidator`): the CSV loader / pre-flight row filter
(`_load_data`), reference-row selection (`get_latest_row`), numeric field
access (`get_value`) and the range classifier (`validate_step`).

Modelling conventions:
* Python `float` string parsing is modelled by `parseFloat`, a decimal
  parser for literals of the form `[+|-]digits[.digits]` over `ℚ`
  (the telemetry CSVs and all inputs of interest use only such literals;
  exponents, inf/nan and exotic whitespace are out of scope).
* A parsed telemetry row (a Python `dict` of stripped strings) is an
  association list `Row`; a raw `csv.DictReader` row (values possibly
  `None` when a data line is shorter than the header) is `RawRow`.
* Human-readable messages that interpolate a float with Python
  format specifiers are modelled by the inductive `Msg`, one constructor
  per distinct message template of the source, carrying the interpolated
  numeric value; fixed-string messages correspond to payload-free
  constructors (the literal text is recorded in each doc comment).
* Statuses are the literal Python strings.
-/

namespace Telemetry

/-- Row of normalized telemetry values: column name to stripped string value
(Python dict of `str` to `str` after normalization in `_load_data`). -/
abbrev Row := List (String × String)

/-- Raw `csv.DictReader` row before normalization: header name paired with
the field value, `none` when the data line had no field for that column. -/
abbrev RawRow := List (String × Option String)

/-- Characters counted as whitespace by the model of Python `str.strip`. -/
def isWS (c : Char) : Bool := c.isWhitespace

/-- Model of Python `str.strip()`: drop whitespace from both ends. -/
def strip (s : String) : String :=
  ⟨((s.data.dropWhile isWS).reverse.dropWhile isWS).reverse⟩

/-- Decimal digits to a natural number accumulator. -/
def digitsToNat : List Char → Nat → Nat
  | [], acc => acc
  | c :: cs, acc => digitsToNat cs (acc * 10 + (c.toNat - 48))

/-- Parser for an unsigned decimal literal `digits[.digits]` (at least one
digit overall), the fragment of Python `float` grammar used by the CSVs. -/
def parseUnsignedQ (cs : List Char) : Option ℚ :=
  let intPart := cs.takeWhile Char.isDigit
  let rest := cs.dropWhile Char.isDigit
  match rest with
  | [] =>
      if intPart = [] then none
      else some (mkRat (Int.ofNat (digitsToNat intPart 0)) 1)
  | '.' :: frac =>
      if frac.all Char.isDigit ∧ (intPart ≠ [] ∨ frac ≠ []) then
        some (mkRat (Int.ofNat (digitsToNat (intPart ++ frac) 0)) ((10 : ℕ) ^ frac.length))
      else none
  | _ => none

/-- Model of Python `float(s)` on an already-stripped string: optional sign
then an unsigned decimal literal; `none` models a raised `ValueError`. -/
def parseFloat (s : String) : Option ℚ :=
  match s.data with
  | '-' :: cs => (parseUnsignedQ cs).map (fun q => -q)
  | '+' :: cs => parseUnsignedQ cs
  | cs => parseUnsignedQ cs

/-- Model of the source pattern `float(s) if s else default` used for the
four pre-flight fields in `_load_data` (empty string means the default,
a parse failure on a non-empty string raises, modelled as `none`). -/
def parseField (s : String) (dflt : ℚ) : Option ℚ :=
  if s = "" then some dflt else parseFloat s

/-- Model of `row.get(k, "")` followed by `str(...)` and `.strip()`
as performed on the pre-flight fields in `_load_data`. -/
def fieldStr (row : Row) (k : String) : String :=
  strip ((row.lookup k).getD "")

/-- AltInd field of a row, parsed with empty-means-0
(`_load_data`: `alt_ind = 0` when the string is empty). -/
def altOf (row : Row) : Option ℚ := parseField (fieldStr row "AltInd") 0

/-- E1 RPM field of a row, parsed with empty-means-0. -/
def rpmOf (row : Row) : Option ℚ := parseField (fieldStr row "E1 RPM") 0

/-- E1 FFlow field of a row, parsed with empty-means-0. -/
def fflowOf (row : Row) : Option ℚ := parseField (fieldStr row "E1 FFlow") 0

/-- GndSpd field of a row, parsed with empty-means-0. -/
def gndspdOf (row : Row) : Option ℚ := parseField (fieldStr row "GndSpd") 0

/-- Pre-flight filter of `_load_data` (lines 64-105): a normalized row is
kept when, all four fields parsing, it is on ground (altitude below 50,
empty altitude read as 0) and either the engine is running
(RPM at least 100 and fuel flowing or moving) or RPM is exactly 0; when a
non-empty field fails to parse (the `except` branch) the row is kept
exactly when the AltInd string is empty. -/
def keepRow (row : Row) : Bool :=
  match altOf row, rpmOf row, fflowOf row, gndspdOf row with
  | some alt, some rpm, some fflow, some gndspd =>
      let isOnGround := decide (alt < 50)
      let isEngineRunning :=
        decide (rpm ≥ 100) && (decide (fflow > 0) || decide (gndspd ≥ mkRat 1 2))
      (isOnGround && isEngineRunning) || (isOnGround && decide (rpm = 0))
  | _, _, _, _ => decide (fieldStr row "AltInd" = "")

/-- Truthiness test `any(row.values())` on a raw reader row: some value is
present and a non-empty string (before any trimming). -/
def rawAny (r : RawRow) : Bool :=
  r.any (fun kv => decide (kv.2.getD "" ≠ ""))

/-- Normalization of one raw row (`_load_data` lines 55-58): strip every
column name, turn a `None` value into the empty string and strip it. -/
def normalizeRow (r : RawRow) : Row :=
  r.map (fun kv => (strip kv.1, strip (kv.2.getD "")))

/-- The `all_rows` loop of `_load_data` (lines 50-59): keep the raw rows
passing the truthiness test, normalized. -/
def parseRawRows : List RawRow → List Row
  | [] => []
  | r :: rs =>
      if rawAny r then normalizeRow r :: parseRawRows rs else parseRawRows rs

/-- The pre-flight filtering loop of `_load_data` (lines 64-105). -/
def filterPreflight : List Row → List Row
  | [] => []
  | r :: rs =>
      if keepRow r then r :: filterPreflight rs else filterPreflight rs

/-- `self._data` as built by `_load_data` from the raw reader rows. -/
def loadRows (raws : List RawRow) : List Row :=
  filterPreflight (parseRawRows raws)

/-- Line filter of `_load_data` (lines 36-39): keep a line when its
stripped form is non-empty and does not start with a `#` comment marker. -/
def keepLine (l : String) : Bool :=
  let s := strip l
  !(decide ((s.data.take 1) = ['#'])) && decide (s ≠ "")

/-- Splitting one CSV line at commas (model of the `csv` reader on the
quote-free telemetry lines; quoting and escapes are out of scope). -/
def splitCommaAux : List Char → List Char → List (List Char)
  | [], acc => [acc.reverse]
  | c :: cs, acc =>
      if c = ',' then acc.reverse :: splitCommaAux cs []
      else splitCommaAux cs (c :: acc)

/-- Fields of a CSV line. -/
def splitLine (l : String) : List String :=
  (splitCommaAux l.data []).map (fun cs => ⟨cs⟩)

/-- Pairing of header names with the values of one data line, missing
values becoming `None` as `csv.DictReader` does (extra values beyond the
header do not occur in the inputs of interest). -/
def zipHeader : List String → List String → RawRow
  | [], _ => []
  | h :: hs, [] => (h, none) :: zipHeader hs []
  | h :: hs, v :: vs => (h, some v) :: zipHeader hs vs

/-- Whole `_load_data` pipeline from the logical lines of the file
(without terminators): comment/blank filtering, the fewer-than-two-lines
bailout, header parsing, row parsing, normalization, pre-flight filter. -/
def loadFromLines (lines : List String) : List Row :=
  match lines.filter keepLine with
  | [] => []
  | [_] => []
  | header :: dataLines =>
      loadRows (dataLines.map (fun dl => zipHeader (splitLine header) (splitLine dl)))

/-- Idle-power test of `get_latest_row` (lines 142-151): the E1 RPM string
is non-empty, parses, and lies in the closed interval 500 to 2000. -/
def rpmIdleOk (row : Row) : Bool :=
  let s := fieldStr row "E1 RPM"
  if s = "" then false
  else
    match parseFloat s with
    | some rpm => decide (500 ≤ rpm ∧ rpm ≤ 2000)
    | none => false

/-- `get_latest_row` (lines 124-154): `none` on an empty data set, else the
first row from most recent to oldest passing `rpmIdleOk`, else the most
recent row. -/
def getLatestRow (data : List Row) : Option Row :=
  match data with
  | [] => none
  | _ :: _ =>
      match data.reverse.find? rpmIdleOk with
      | some r => some r
      | none => data.getLast?

/-- `get_value` (lines 156-192) on an explicit row: strip the column name,
look it up, strip the value, empty or unparseable meaning absent. -/
def getValue (row : Row) (col : String) : Option ℚ :=
  match row.lookup (strip col) with
  | none => none
  | some v =>
      let v := strip v
      if v = "" then none else parseFloat v

/-- One tier's bound pair: optional `min` and `max` (a missing tier or a
falsy empty bound dict is a `none` at the `States` level instead). -/
structure Bound where
  min : Option ℚ
  max : Option ℚ
deriving DecidableEq

/-- The `states` range specification of a checklist step: optional red,
yellow and green bound pairs (a `None` or falsy-empty dict is `none`). -/
structure States where
  red : Option Bound
  yellow : Option Bound
  green : Option Bound
deriving DecidableEq

/-- A checklist step as consumed by `validate_step`: its name (default
empty), the declared telemetry columns and the optional states spec. -/
structure Step where
  name : String
  telemetry_columns : List String
  states : Option States
deriving DecidableEq

/-- Red-tier membership (lines 257-268): both bounds give a closed
interval; a sole `min` matches values at or above it; a sole `max`
matches values at or below it. -/
def redMatch (b : Bound) (v : ℚ) : Bool :=
  match b.min, b.max with
  | some mn, some mx => decide (mn ≤ v ∧ v ≤ mx)
  | some mn, none => decide (v ≥ mn)
  | none, some mx => decide (v ≤ mx)
  | none, none => false

/-- Yellow-tier membership (lines 283-303): both bounds give a closed
interval; a sole `min` matches values strictly below it; a sole `max`
matches values strictly above it. -/
def yellowMatch (b : Bound) (v : ℚ) : Bool :=
  match b.min, b.max with
  | some mn, some mx => decide (mn ≤ v ∧ v ≤ mx)
  | some mn, none => decide (v < mn)
  | none, some mx => decide (v > mx)
  | none, none => false

/-- Green-tier membership (lines 308-322): both bounds give a closed
interval; a sole `min` matches values at or above it; a sole `max`
matches values at or below it. -/
def greenMatch (b : Bound) (v : ℚ) : Bool :=
  match b.min, b.max with
  | some mn, some mx => decide (mn ≤ v ∧ v ≤ mx)
  | some mn, none => decide (v ≥ mn)
  | none, some mx => decide (v ≤ mx)
  | none, none => false

/-- The red tier is present and matches the value. -/
def redHit (s : States) (v : ℚ) : Bool :=
  (s.red.map (fun b => redMatch b v)).getD false

/-- The yellow tier is present and matches the value. -/
def yellowHit (s : States) (v : ℚ) : Bool :=
  (s.yellow.map (fun b => yellowMatch b v)).getD false

/-- The green tier is present and matches the value. -/
def greenHit (s : States) (v : ℚ) : Bool :=
  (s.green.map (fun b => greenMatch b v)).getD false

/-- Human-readable messages of `validate_step`, one constructor per message
template of the source; `v` stands for the interpolated check value whose
decimal rendering is presentation and not modelled. -/
inductive Msg where
  /-- Literal message: No telemetry data available. -/
  | noData
  /-- Message: No telemetry data available for columns: (list). -/
  | noDataForCols (cols : List String)
  /-- Literal message: Visual check required - no telemetry validation. -/
  | visualCheck
  /-- Literal message: No validation criteria defined for this step. -/
  | noCriteria
  /-- Message: WARNING: (value description) - In warning range. -/
  | warnRange (v : ℚ)
  /-- Message: CAUTION: (value description) - Requires attention. -/
  | cautionRange (v : ℚ)
  /-- Message: CAUTION: (value description) - Below normal minimum. -/
  | cautionBelowMin (v : ℚ)
  /-- Message: CAUTION: (value description) - Above normal maximum. -/
  | cautionAboveMax (v : ℚ)
  /-- Message: OK: (value description) - Within normal range. -/
  | okRange (v : ℚ)
  /-- Message: value outside all defined ranges, with margin diagnostic
  and a summary of the configured ranges (lines 324-388). -/
  | outsideRanges (v : ℚ)
deriving DecidableEq

/-- Details dictionary of a classified outcome: the computed check value,
the matched range tag (red, yellow, green, or unknown on no match) and the
raw per-column readings. -/
structure VDetails where
  value : ℚ
  rangeTag : String
  rawValues : List (String × Option ℚ)
deriving DecidableEq

/-- The `(status, message, details)` triple returned by `validate_step`. -/
structure VResult where
  status : String
  message : Msg
  details : Option VDetails
deriving DecidableEq

/-- Submessage choice of the yellow branch, by bound shape. -/
def yellowMsg (b : Bound) (v : ℚ) : Msg :=
  match b.min, b.max with
  | some _, some _ => .cautionRange v
  | some _, none => .cautionBelowMin v
  | none, some _ => .cautionAboveMax v
  | none, none => .cautionRange v

/-- Message of the yellow branch for the whole states spec. -/
def yellowMsgOf (s : States) (v : ℚ) : Msg :=
  match s.yellow with
  | some b => yellowMsg b v
  | none => .cautionRange v

/-- Tier classification of `validate_step` (lines 254-393): red, then
yellow, then green; the first matching tier returns, else failed. -/
def classify (s : States) (v : ℚ) : String × Msg × String :=
  if redHit s v then ("warning", .warnRange v, "red")
  else if yellowHit s v then ("caution", yellowMsgOf s v, "yellow")
  else if greenHit s v then ("success", .okRange v, "green")
  else ("failed", .outsideRanges v, "unknown")

/-- One `values[col] = val` assignment on the insertion-ordered dict of
per-column readings (a repeated column overwrites in place). -/
def insertVal (vs : List (String × Option ℚ)) (k : String) (v : Option ℚ) :
    List (String × Option ℚ) :=
  if vs.any (fun p => p.1 = k) then
    vs.map (fun p => if p.1 = k then (k, v) else p)
  else vs ++ [(k, v)]

/-- The `values` dict of `validate_step` (lines 225-228): every declared
column read through `get_value`, in declared order. -/
def buildValues (row : Row) (cols : List String) : List (String × Option ℚ) :=
  cols.foldl (fun vs c => insertVal vs c (getValue row c)) []

/-- List-containment of one character sequence in another, the model of
the Python `in` substring test. -/
def startsWithL : List Char → List Char → Bool
  | [], _ => true
  | _ :: _, [] => false
  | p :: ps, c :: cs => p == c && startsWithL ps cs

/-- Substring occurrence test over character lists. -/
def hasSub (pat : List Char) : List Char → Bool
  | [] => startsWithL pat []
  | c :: cs => startsWithL pat (c :: cs) || hasSub pat cs

/-- Fuel-quantity condition of `validate_step` (line 237): the step name
contains the substring Fuel Quantity, or FQtyL is a declared column. -/
def isFuelStep (step : Step) : Bool :=
  hasSub "Fuel Quantity".data step.name.data || step.telemetry_columns.contains "FQtyL"

/-- Check-value synthesis of `validate_step` (lines 230-244): `none` when
no declared column has a present reading; else the sum of all present
readings for a fuel-quantity step, and the first present reading in
declared-column order otherwise. -/
def checkValueOf (step : Step) (row : Row) : Option ℚ :=
  let values := buildValues row step.telemetry_columns
  match values.filterMap (fun p => p.2) with
  | [] => none
  | v0 :: rest =>
      some (if isFuelStep step then (v0 :: rest).sum else v0)

/-- `validate_step` (lines 194-393) as a function of the loaded data, the
step and the optionally supplied row. -/
def validateStep (data : List Row) (step : Step) (row? : Option Row) : VResult :=
  let rowEff := match row? with
    | none => getLatestRow data
    | some r => some r
  match rowEff with
  | none => ⟨"no_data", .noData, none⟩
  | some row =>
      if row = [] then ⟨"no_data", .noData, none⟩
      else if step.telemetry_columns = [] then ⟨"success", .visualCheck, none⟩
      else
        match step.states with
        | none => ⟨"failed", .noCriteria, none⟩
        | some s =>
            match checkValueOf step row with
            | none => ⟨"no_data", .noDataForCols step.telemetry_columns, none⟩
            | some cv =>
                let c := classify s cv
                ⟨c.1, c.2.1, some ⟨cv, c.2.2, buildValues row step.telemetry_columns⟩⟩

/-- The validator method with its state made explicit: `validate_step`
assigns no attribute of `self`, so the loaded data passes through
unchanged while the result is computed from it. -/
def validateStepS (data : List Row) (step : Step) (row? : Option Row) :
    VResult × List Row :=
  (validateStep data step row?, data)

/-! Helper lemmas shared by the claim theorems. -/

/-- On an explicitly supplied, non-empty row with columns, states and a
computed check value, `validate_step` returns the classified outcome. -/
theorem validateStep_classified (data : List Row) (step : Step) (row : Row)
    (s : States) (v : ℚ)
    (hrow : row ≠ []) (hcols : step.telemetry_columns ≠ [])
    (hstates : step.states = some s) (hval : checkValueOf step row = some v) :
    validateStep data step (some row) =
      ⟨(classify s v).1, (classify s v).2.1,
        some ⟨v, (classify s v).2.2, buildValues row step.telemetry_columns⟩⟩ := by
  simp only [validateStep]
  rw [if_neg hrow, if_neg hcols, hstates, hval]

/-- A successful `find?` splits its list at the first hit. -/
theorem find?_decompose {α : Type} (p : α → Bool) :
    ∀ (l : List α) (a : α), l.find? p = some a →
      ∃ l1 l2, l = l1 ++ a :: l2 ∧ ∀ x ∈ l1, p x = false := by
  intro l
  induction l with
  | nil => intro a h; simp [List.find?] at h
  | cons x xs ih =>
      intro a h
      rcases hx : p x with _ | _
      · rw [List.find?_cons, hx] at h
        simp only [cond_false] at h
        obtain ⟨l1, l2, hl, hall⟩ := ih a h
        refine ⟨x :: l1, l2, by simp [hl], ?_⟩
        intro y hy
        rcases List.mem_cons.mp hy with hy | hy
        · exact hy ▸ hx
        · exact hall y hy
      · rw [List.find?_cons, hx] at h
        simp only [cond_true, Option.some.injEq] at h
        exact ⟨[], xs, by simp [h], by simp⟩

/-- A red tier with only a min bound matches the values at or above it. -/
theorem redMatch_min_only (mn v : ℚ) :
    redMatch ⟨some mn, none⟩ v = decide (v ≥ mn) := rfl

/-- A yellow tier with only a min bound matches the values strictly
below it. -/
theorem yellowMatch_min_only (mn v : ℚ) :
    yellowMatch ⟨some mn, none⟩ v = decide (v < mn) := rfl

/-- A non-empty list has a last element. -/
theorem getLast?_of_ne_nil {α : Type} :
    ∀ (l : List α), l ≠ [] → ∃ a, l.getLast? = some a := by
  intro l
  induction l with
  | nil => intro h; exact absurd rfl h
  | cons x xs ih =>
      intro _
      cases xs with
      | nil => exact ⟨x, rfl⟩
      | cons y ys =>
          obtain ⟨a, ha⟩ := ih (by simp)
          exact ⟨a, by rw [List.getLast?_cons_cons]; exact ha⟩

/-! Claim theorems. -/

/-- C4 counterexample: loading the CSV whose lines are the header
" E1 RPM" and the data rows 50, 600, 1800 (altitude column absent), the
reference-row selection returns `none` — not the row with RPM 1800 that
the claim announces. -/
theorem c4_counterexample :
    getLatestRow (loadFromLines [" E1 RPM", "50", "600", "1800"]) = none := by
  decide

/-- C4 amended: on that CSV the three data rows parse and normalize as
expected, but the pre-flight filter of `_load_data` drops all of them
(RPM 600 and 1800 are at least 100 yet fuel flow and ground speed are
absent hence 0, so the engine-running test fails, and RPM is not 0; RPM 50
likewise), so the retained set is empty, `get_latest_row` returns `none`
and validation reports no_data. -/
theorem c4_end_to_end_amended :
    parseRawRows ((["50", "600", "1800"]).map
        (fun dl => zipHeader (splitLine " E1 RPM") (splitLine dl))) =
      [[("E1 RPM", "50")], [("E1 RPM", "600")], [("E1 RPM", "1800")]] ∧
    loadFromLines [" E1 RPM", "50", "600", "1800"] = [] ∧
    (validateStep (loadFromLines [" E1 RPM", "50", "600", "1800"])
        ⟨"Test step", ["E1 RPM"], none⟩ none).status = "no_data" := by
  exact ⟨by decide, by decide, by decide⟩

/-- C6: for every tier with both min and max defined, a check value
matches exactly when min ≤ value ≤ max, both endpoints inclusive, in all
three tiers; concretely, with a green range of min 55 and max 95 and no
red or yellow tier, check value 55 returns status success while check
value 54.999 does not match green and falls through to status failed. -/
theorem c6_boundary_inclusivity (mn mx v : ℚ) :
    (redMatch ⟨some mn, some mx⟩ v = true ↔ mn ≤ v ∧ v ≤ mx) ∧
    (yellowMatch ⟨some mn, some mx⟩ v = true ↔ mn ≤ v ∧ v ≤ mx) ∧
    (greenMatch ⟨some mn, some mx⟩ v = true ↔ mn ≤ v ∧ v ≤ mx) ∧
    (validateStep [] ⟨"Oil Temp", ["X"], some ⟨none, none, some ⟨some 55, some 95⟩⟩⟩
        (some [("X", "55")])).status = "success" ∧
    (validateStep [] ⟨"Oil Temp", ["X"], some ⟨none, none, some ⟨some 55, some 95⟩⟩⟩
        (some [("X", "54.999")])).status = "failed" :=
  ⟨by simp [redMatch], by simp [yellowMatch], by simp [greenMatch],
    by decide, by decide⟩

/-- C7: a step with an empty telemetry_columns list returns success with
the visual-check message whatever its states field holds, the empty-column
check taking precedence over the missing-states check; a step with
columns but no states returns failed with the no-validation-criteria
message. -/
theorem c7_visual_precedence (data : List Row) (step1 step2 : Step) (row : Row)
    (hrow : row ≠ [])
    (h1 : step1.telemetry_columns = [])
    (h2c : step2.telemetry_columns ≠ []) (h2s : step2.states = none) :
    validateStep data step1 (some row) = ⟨"success", .visualCheck, none⟩ ∧
    validateStep data step2 (some row) = ⟨"failed", .noCriteria, none⟩ := by
  constructor
  · simp only [validateStep]
    rw [if_neg hrow, if_pos h1]
  · simp only [validateStep]
    rw [if_neg hrow, if_neg h2c, h2s]

/-- C7 witness at a concrete visual step, a concrete criterion-free step
and a concrete row. -/
theorem c7_visual_precedence_witness :
    validateStep [] ⟨"Check seat belts", [], some ⟨none, none, some ⟨some 0, some 1⟩⟩⟩
        (some [("X", "3")]) = ⟨"success", .visualCheck, none⟩ ∧
    validateStep [] ⟨"Mystery step", ["X"], none⟩ (some [("X", "3")]) =
      ⟨"failed", .noCriteria, none⟩ :=
  c7_visual_precedence [] ⟨"Check seat belts", [], some ⟨none, none, some ⟨some 0, some 1⟩⟩⟩
    ⟨"Mystery step", ["X"], none⟩ [("X", "3")] (by decide) rfl (by decide) rfl

/-- C8 counterexample: a raw reader row both of whose values are the
single-space string passes the truthiness test of the loader and is
retained, normalized to empty values — not discarded as the claim
states. -/
theorem c8_counterexample :
    parseRawRows [[("A", some " "), ("B", some " ")]] = [[("A", ""), ("B", "")]] ∧
    parseRawRows [[("A", some " "), ("B", some " ")]] ≠ [] := by
  exact ⟨by decide, by decide⟩

/-- C8 amended: the loader discards a parsed CSV data row exactly when
every one of its raw values is missing or the empty string before any
trimming; every retained row is normalized by trimming all column names
and values; in particular a row whose values are all whitespace-only
non-empty strings is retained, with its values normalized to empty
strings. -/
theorem c8_row_discard_amended (raws : List RawRow) (r : RawRow) :
    parseRawRows raws = (raws.filter rawAny).map normalizeRow ∧
    (rawAny r = false ↔ ∀ kv ∈ r, kv.2 = none ∨ kv.2 = some "") ∧
    normalizeRow [("A", some " "), ("B", some " ")] = [("A", ""), ("B", "")] := by
  refine ⟨?_, ?_, by decide⟩
  · induction raws with
    | nil => rfl
    | cons x xs ih =>
        by_cases hx : rawAny x = true
        · simp [parseRawRows, hx, ih]
        · simp only [Bool.not_eq_true] at hx
          simp [parseRawRows, hx, ih]
  · rw [rawAny, List.any_eq_false]
    constructor
    · intro h kv hkv
      have := h kv hkv
      rcases hv : kv.2 with _ | v
      · exact Or.inl rfl
      · refine Or.inr ?_
        rw [hv] at this
        simp only [Option.getD_some, decide_eq_true_eq, Decidable.not_not] at this
        rw [this]
    · intro h kv hkv
      rcases h kv hkv with hv | hv <;> simp [hv]

/-- C8 amended witness: the loader pipeline on a two-row raw batch, one
row empty-before-trimming and one whitespace-only, keeps exactly the
whitespace-only row in normalized form. -/
theorem c8_row_discard_amended_witness :
    parseRawRows [[("A", some " "), ("B", some " ")], [("C", none), ("D", some "")]] =
      [[("A", ""), ("B", "")]] := by
  rw [(c8_row_discard_amended
    [[("A", some " "), ("B", some " ")], [("C", none), ("D", some "")]] []).1]
  decide

/-- C9: validation is pure — with the validator state made explicit,
`validate_step` leaves the loaded row collection unchanged, and a second
call on the resulting state with the identical step and row yields the
identical outcome. -/
theorem c9_validate_pure (data : List Row) (step : Step) (row? : Option Row) :
    (validateStepS data step row?).2 = data ∧
    (validateStepS (validateStepS data step row?).2 step row?).1 =
      (validateStepS data step row?).1 :=
  ⟨rfl, rfl⟩

/-- C1: on a step with columns and states and a row yielding a check
value, the tiers are evaluated red, yellow, green, the first whose bounds
match winning: a red match returns warning whatever yellow and green say,
a yellow match with red missed returns caution, a green match with red
and yellow missed returns success, and no match at all returns failed. -/
theorem c1_tier_priority (data : List Row) (step : Step) (row : Row)
    (s : States) (v : ℚ)
    (hrow : row ≠ []) (hcols : step.telemetry_columns ≠ [])
    (hstates : step.states = some s) (hval : checkValueOf step row = some v) :
    (redHit s v = true → (validateStep data step (some row)).status = "warning") ∧
    (redHit s v = false → yellowHit s v = true →
      (validateStep data step (some row)).status = "caution") ∧
    (redHit s v = false → yellowHit s v = false → greenHit s v = true →
      (validateStep data step (some row)).status = "success") ∧
    (redHit s v = false → yellowHit s v = false → greenHit s v = false →
      (validateStep data step (some row)).status = "failed") := by
  rw [validateStep_classified data step row s v hrow hcols hstates hval]
  exact ⟨fun h1 => by simp [classify, h1],
    fun h1 h2 => by simp [classify, h1, h2],
    fun h1 h2 h3 => by simp [classify, h1, h2, h3],
    fun h1 h2 h3 => by simp [classify, h1, h2, h3]⟩

/-- C1 witness: a value lying in overlapping red and yellow min-max
ranges is classified warning, the red tier winning. -/
theorem c1_tier_priority_witness :
    (validateStep [] ⟨"Oil Press", ["X"],
        some ⟨some ⟨some 100, some 200⟩, some ⟨some 100, some 300⟩, none⟩⟩
      (some [("X", "150")])).status = "warning" :=
  (c1_tier_priority [] ⟨"Oil Press", ["X"],
      some ⟨some ⟨some 100, some 200⟩, some ⟨some 100, some 300⟩, none⟩⟩
    [("X", "150")] ⟨some ⟨some 100, some 200⟩, some ⟨some 100, some 300⟩, none⟩ 150
    (by decide) (by decide) rfl (by decide)).1 (by decide)

/-- C5: a step whose name contains Fuel Quantity or whose columns include
FQtyL takes as check value the sum of all present readings, any other
step the first present reading in declared-column order. -/
theorem c5_fuel_value_synthesis (data : List Row) (step : Step) (row : Row)
    (s : States) (v0 : ℚ) (rest : List ℚ)
    (hrow : row ≠ []) (hcols : step.telemetry_columns ≠ [])
    (hstates : step.states = some s)
    (hvals : (buildValues row step.telemetry_columns).filterMap (fun p => p.2) =
      v0 :: rest) :
    (isFuelStep step = true →
      ((validateStep data step (some row)).details.map (fun d => d.value)) =
        some ((v0 :: rest).sum)) ∧
    (isFuelStep step = false →
      ((validateStep data step (some row)).details.map (fun d => d.value)) =
        some v0) := by
  constructor
  · intro hf
    have hval : checkValueOf step row = some ((v0 :: rest).sum) := by
      simp only [checkValueOf]
      rw [hvals]
      simp [hf]
    rw [validateStep_classified data step row s _ hrow hcols hstates hval]
    simp
  · intro hf
    have hval : checkValueOf step row = some v0 := by
      simp only [checkValueOf]
      rw [hvals]
      simp [hf]
    rw [validateStep_classified data step row s _ hrow hcols hstates hval]
    simp

/-- C5 witness: a step named Fuel Quantity with columns FQtyL and FQtyR
reading 12.0 and 8.0 yields check value 20.0. -/
theorem c5_fuel_value_synthesis_witness :
    ((validateStep [] ⟨"Fuel Quantity", ["FQtyL", "FQtyR"],
          some ⟨none, none, some ⟨some 0, some 100⟩⟩⟩
        (some [("FQtyL", "12.0"), ("FQtyR", "8.0")])).details.map
      (fun d => d.value)) = some 20 := by
  have h := (c5_fuel_value_synthesis []
    ⟨"Fuel Quantity", ["FQtyL", "FQtyR"], some ⟨none, none, some ⟨some 0, some 100⟩⟩⟩
    [("FQtyL", "12.0"), ("FQtyR", "8.0")] ⟨none, none, some ⟨some 0, some 100⟩⟩
    (mkRat 120 10) [mkRat 80 10]
    (by decide) (by decide) rfl (by decide)).1 (by decide)
  rw [h]
  norm_num [List.sum_cons, List.sum_nil, mkRat, Rat.normalize]

/-- C10: a red tier defining only min classifies every value at or above
that min as warning, while a yellow tier defining only min (red having
missed) classifies exactly the values strictly below that min as caution,
so a value equal to the yellow min is not cautioned. -/
theorem c10_asymmetric_bounds (data : List Row) (step : Step) (row : Row)
    (s : States) (v rmn ymn : ℚ)
    (hrow : row ≠ []) (hcols : step.telemetry_columns ≠ [])
    (hstates : step.states = some s) (hval : checkValueOf step row = some v) :
    (s.red = some ⟨some rmn, none⟩ → v ≥ rmn →
      (validateStep data step (some row)).status = "warning") ∧
    (redHit s v = false → s.yellow = some ⟨some ymn, none⟩ →
      ((validateStep data step (some row)).status = "caution" ↔ v < ymn)) ∧
    (redHit s v = false → s.yellow = some ⟨some ymn, none⟩ → v = ymn →
      (validateStep data step (some row)).status ≠ "caution") := by
  rw [validateStep_classified data step row s v hrow hcols hstates hval]
  refine ⟨fun hr hge => ?_, fun hrf hy => ?_, fun hrf hy heq => ?_⟩
  · have hred : redHit s v = true := by
      rw [redHit, hr]
      simp only [Option.map_some', Option.getD_some, redMatch_min_only]
      exact decide_eq_true hge
    simp [classify, hred]
  · have hyel : yellowHit s v = decide (v < ymn) := by
      rw [yellowHit, hy]
      simp only [Option.map_some', Option.getD_some, yellowMatch_min_only]
    by_cases hlt : v < ymn
    · simp [classify, hrf, hyel, hlt]
    · have hyf : yellowHit s v = false := by rw [hyel]; exact decide_eq_false hlt
      by_cases hg : greenHit s v = true <;> simp [classify, hrf, hyf, hg, hlt]
  · have hyel : yellowHit s v = false := by
      rw [yellowHit, hy]
      simp only [Option.map_some', Option.getD_some, yellowMatch_min_only]
      exact decide_eq_false (by rw [heq]; exact lt_irrefl ymn)
    by_cases hg : greenHit s v = true <;> simp [classify, hrf, hyel, hg]

/-- C10 witness: with a min-only red tier at 100 and a min-only yellow
tier at 20, the value 150 is warned, the value 10 is cautioned, and the
value 20 (equal to the yellow min) is not cautioned. -/
theorem c10_asymmetric_bounds_witness :
    (validateStep [] ⟨"Volts", ["X"],
        some ⟨some ⟨some 100, none⟩, some ⟨some 20, none⟩, none⟩⟩
      (some [("X", "150")])).status = "warning" ∧
    (validateStep [] ⟨"Volts", ["X"],
        some ⟨some ⟨some 100, none⟩, some ⟨some 20, none⟩, none⟩⟩
      (some [("X", "10")])).status = "caution" ∧
    (validateStep [] ⟨"Volts", ["X"],
        some ⟨some ⟨some 100, none⟩, some ⟨some 20, none⟩, none⟩⟩
      (some [("X", "20")])).status ≠ "caution" :=
  ⟨(c10_asymmetric_bounds [] ⟨"Volts", ["X"],
        some ⟨some ⟨some 100, none⟩, some ⟨some 20, none⟩, none⟩⟩
      [("X", "150")] ⟨some ⟨some 100, none⟩, some ⟨some 20, none⟩, none⟩ 150 100 20
      (by decide) (by decide) rfl (by decide)).1 rfl (by decide),
   ((c10_asymmetric_bounds [] ⟨"Volts", ["X"],
        some ⟨some ⟨some 100, none⟩, some ⟨some 20, none⟩, none⟩⟩
      [("X", "10")] ⟨some ⟨some 100, none⟩, some ⟨some 20, none⟩, none⟩ 10 100 20
      (by decide) (by decide) rfl (by decide)).2.1 (by decide) rfl).mpr (by decide),
   (c10_asymmetric_bounds [] ⟨"Volts", ["X"],
        some ⟨some ⟨some 100, none⟩, some ⟨some 20, none⟩, none⟩⟩
      [("X", "20")] ⟨some ⟨some 100, none⟩, some ⟨some 20, none⟩, none⟩ 20 100 20
      (by decide) (by decide) rfl (by decide)).2.2 (by decide) rfl rfl⟩

/-- C2: a parsed row whose altitude parses below 50, whose RPM parses at
or above 100 and whose fuel flow parses above 0 or ground speed at or
above one half is retained; in general a row is retained exactly when it
is on ground (altitude below 50, empty altitude read as 0) and either
engine-running or RPM exactly 0, or when one of the four fields fails
numeric parsing while the altitude field is empty. -/
theorem c2_preflight_retention (row : Row) :
    (∀ alt rpm fflow gndspd : ℚ,
      altOf row = some alt → rpmOf row = some rpm →
      fflowOf row = some fflow → gndspdOf row = some gndspd →
      alt < 50 → rpm ≥ 100 → (fflow > 0 ∨ gndspd ≥ mkRat 1 2) →
      keepRow row = true) ∧
    (keepRow row = true ↔
      ((∃ alt rpm fflow gndspd : ℚ,
          altOf row = some alt ∧ rpmOf row = some rpm ∧
          fflowOf row = some fflow ∧ gndspdOf row = some gndspd ∧
          alt < 50 ∧
          ((rpm ≥ 100 ∧ (fflow > 0 ∨ gndspd ≥ mkRat 1 2)) ∨ rpm = 0)) ∨
        ((altOf row = none ∨ rpmOf row = none ∨
          fflowOf row = none ∨ gndspdOf row = none) ∧
          fieldStr row "AltInd" = ""))) := by
  constructor
  · intro alt rpm fflow gndspd ha hr hf hg h50 h100 hrun
    unfold keepRow
    rw [ha, hr, hf, hg]
    simp only [Bool.or_eq_true, Bool.and_eq_true, decide_eq_true_eq]
    exact Or.inl ⟨h50, h100, hrun⟩
  · rcases ha : altOf row with _ | alt <;>
      rcases hr : rpmOf row with _ | rpm <;>
        rcases hf : fflowOf row with _ | fflow <;>
          rcases hg : gndspdOf row with _ | gndspd <;>
            (unfold keepRow; rw [ha, hr, hf, hg];
             first
             | (simp [Bool.or_eq_true, Bool.and_eq_true, decide_eq_true_eq]; done)
             | (simp only [Bool.or_eq_true, Bool.and_eq_true, decide_eq_true_eq,
                  Option.some.injEq]
                constructor
                · intro hp
                  refine Or.inl ⟨alt, rpm, fflow, gndspd, rfl, rfl, rfl, rfl, ?_⟩
                  tauto
                · intro hq
                  rcases hq with ⟨a, r, f, g, hea, her, hef, heg, hrest⟩ | ⟨hn, _⟩
                  · subst hea; subst her; subst hef; subst heg
                    tauto
                  · rcases hn with hn | hn | hn | hn <;> exact absurd hn (by simp)))

/-- C2 witness: a concrete on-ground, engine-running row is retained. -/
theorem c2_preflight_retention_witness :
    keepRow [("AltInd", "10"), ("E1 RPM", "1000"), ("E1 FFlow", "5"), ("GndSpd", "0")] =
      true :=
  (c2_preflight_retention
      [("AltInd", "10"), ("E1 RPM", "1000"), ("E1 FFlow", "5"), ("GndSpd", "0")]).1
    10 1000 5 0 (by decide) (by decide) (by decide) (by decide)
    (by decide) (by decide) (Or.inl (by decide))

/-- C3: reference-row selection returns `none` exactly on an empty
retained set; any returned row belongs to the retained set; when some
retained row has RPM in the closed interval 500 to 2000, the returned row
is such a row, and it is the most recent one (no later retained row
qualifies); when no retained row qualifies, the most recent retained row
is returned. -/
theorem c3_reference_row_selection (data : List Row) :
    (getLatestRow data = none ↔ data = []) ∧
    (∀ r, getLatestRow data = some r → r ∈ data) ∧
    (∀ r, r ∈ data → rpmIdleOk r = true →
      ∃ r' pre post, getLatestRow data = some r' ∧ rpmIdleOk r' = true ∧
        data = pre ++ r' :: post ∧ ∀ x ∈ post, rpmIdleOk x = false) ∧
    ((∀ r ∈ data, rpmIdleOk r = false) → data ≠ [] →
      getLatestRow data = data.getLast?) := by
  refine ⟨?_, ?_, ?_, ?_⟩
  · cases data with
    | nil => simp [getLatestRow]
    | cons x xs =>
        simp only [getLatestRow]
        constructor
        · intro h
          rcases hfind : (x :: xs).reverse.find? rpmIdleOk with _ | r
          · rw [hfind] at h
            obtain ⟨a, ha⟩ := getLast?_of_ne_nil (x :: xs) (by simp)
            rw [ha] at h
            exact absurd h (by simp)
          · rw [hfind] at h
            exact absurd h (by simp)
        · intro h
          exact absurd h (by simp)
  · intro r h
    cases data with
    | nil => simp [getLatestRow] at h
    | cons x xs =>
        simp only [getLatestRow] at h
        rcases hfind : (x :: xs).reverse.find? rpmIdleOk with _ | r'
        · rw [hfind] at h
          have hlast : (x :: xs).getLast? = some r := h
          have : (x :: xs).getLast ((by simp) : x :: xs ≠ []) = r := by
            rw [List.getLast?_eq_getLast (x :: xs) (by simp)] at hlast
            exact Option.some.inj hlast
          rw [← this]
          exact List.getLast_mem _
        · rw [hfind] at h
          have : r' = r := Option.some.inj h
          subst this
          exact List.mem_reverse.mp (List.mem_of_find?_eq_some hfind)
  · intro r hmem hok
    cases data with
    | nil => simp at hmem
    | cons x xs =>
        have hex : ∃ y ∈ (x :: xs).reverse, rpmIdleOk y = true :=
          ⟨r, List.mem_reverse.mpr hmem, hok⟩
        have hsome : ((x :: xs).reverse.find? rpmIdleOk).isSome := by
          rw [List.find?_isSome]
          exact hex
        rcases hfind : (x :: xs).reverse.find? rpmIdleOk with _ | r'
        · rw [hfind] at hsome
          simp at hsome
        · obtain ⟨l1, l2, hsplit, hall⟩ := find?_decompose rpmIdleOk _ r' hfind
          refine ⟨r', l2.reverse, l1.reverse, ?_, List.find?_some hfind, ?_, ?_⟩
          · simp only [getLatestRow]
            rw [hfind]
          · have : (x :: xs).reverse.reverse = (l1 ++ r' :: l2).reverse := by
              rw [hsplit]
            simpa using this
          · intro y hy
            exact hall y (List.mem_reverse.mp hy)
  · intro hnone hne
    cases data with
    | nil => exact absurd rfl hne
    | cons x xs =>
        have hfind : (x :: xs).reverse.find? rpmIdleOk = none := by
          rw [List.find?_eq_none]
          intro y hy
          rw [hnone y (List.mem_reverse.mp hy)]
          simp
        simp only [getLatestRow]
        rw [hfind]

/-- C3 witness: on a one-row retained set whose RPM 2500 is outside the
idle interval, selection falls back to the most recent retained row. -/
theorem c3_reference_row_selection_witness :
    getLatestRow [[("E1 RPM", "2500")]] = [[("E1 RPM", "2500")]].getLast? :=
  (c3_reference_row_selection [[("E1 RPM", "2500")]]).2.2.2 (by decide) (by decide)

end Telemetry
